import Mathlib

/-!
Verification of the deterministic financial-projection and health-scoring
engine of the Saarathi repository, as a shallow embedding in Lean 4.

Currency amounts are integers (`ℤ`); intermediate averages and running cash
are exact rationals (`ℚ`), idealising JavaScript's floating-point numbers.
JavaScript's `Math.round` is `jsRound` (floor of `x + 1/2`), `Math.floor`
is `Int.floor`.

Calendar abstraction: the engines obtain each projected day's day-of-month
and day-of-week from `new Date()` plus `setDate`; we model the start date by
two arbitrary sequences `dom dow : ℕ → ℕ` giving the day-of-month and
day-of-week of day `i` of the walk. Theorems quantified over `dom`/`dow`
hold in particular for the real calendar, and all concrete counterexample
inputs use calendar-realisable sequences.
-/

namespace Saarathi

/-- JavaScript `Math.round`: round half toward positive infinity. -/
def jsRound (q : ℚ) : ℤ := ⌊q + 1/2⌋

/-- A ledger transaction (table `transaction`): `type` is one of
`"income" | "expense" | "salary" | "advance"`, `amount` an integer. -/
structure Txn where
  type : String
  amount : ℤ
deriving DecidableEq

/-- A staff record (table `staff`); `paymentDay` is nullable. -/
structure Staff where
  name : String
  salaryAmount : ℤ
  salaryType : String
  paymentDay : Option ℤ
  advanceBalance : ℤ
deriving DecidableEq

/-- JavaScript `s.paymentDay || 1`: `null` and `0` are falsy. -/
def paymentDayOrOne (p : Option ℤ) : ℤ :=
  match p with
  | none => 1
  | some d => if d = 0 then 1 else d

/-- `scheduled-jobs.ts` lines 140-142 and `part_001` lines 291-293:
`historicalTransactions.filter((t) => t.type === "expense").reduce((sum, t) => sum + t.amount, 0) / 30`. -/
def dailyExpensesAvg (txns : List Txn) : ℚ :=
  (((txns.filter (fun t => t.type == "expense")).map (fun t => (t.amount : ℚ))).sum) / 30

/-- `scheduled-jobs.ts` lines 144-146 and `part_001` lines 295-297: same with
`t.type === "income"`. -/
def dailyIncomeAvg (txns : List Txn) : ℚ :=
  (((txns.filter (fun t => t.type == "income")).map (fun t => (t.amount : ℚ))).sum) / 30

/-- Modelled from the spec (§4.1, claim C4): `dailyExpenseAvg =
sum(expense+salary+advance amounts) / windowDays` — the aggregate the spec
ascribes to the projection engine, for comparison with `dailyExpensesAvg`. -/
def specDailyExpenseAvg (txns : List Txn) (windowDays : ℤ) : ℚ :=
  (((txns.filter (fun t =>
      t.type == "expense" || t.type == "salary" || t.type == "advance")).map
    (fun t => (t.amount : ℚ))).sum) / windowDays

/-- One entry of the `monthlySalaries` array built by both projection engines. -/
structure SalaryEntry where
  amount : ℤ
  day : ℤ
deriving DecidableEq

/-- `scheduled-jobs.ts` lines 149-155 and `part_001` lines 301-307:
`staff.filter((s) => s.salaryType === "monthly").map((s) => ({ amount:
s.salaryAmount - s.advanceBalance, day: s.paymentDay || 1 }))`. -/
def monthlySalaries (staff : List Staff) : List SalaryEntry :=
  (staff.filter (fun s => s.salaryType == "monthly")).map
    (fun s => { amount := s.salaryAmount - s.advanceBalance,
                day := paymentDayOrOne s.paymentDay })

/-- `monthlySalaries.filter((s) => s.day === dayOfMonth).reduce((sum, s) => sum + s.amount, 0)`. -/
def salariesOnDay (sals : List SalaryEntry) (dayOfMonth : ℤ) : ℤ :=
  ((sals.filter (fun s => s.day == dayOfMonth)).map (fun s => s.amount)).sum

/-- `dayOfWeek === 0 || dayOfWeek === 6 ? 1.3 : 1` (weekend boost). -/
def weekendMultiplier (dayOfWeek : ℕ) : ℚ :=
  if dayOfWeek == 0 || dayOfWeek == 6 then 13/10 else 1

/-- `scheduled-jobs.ts` lines 186-187: `i < 3 ? "high" : i < 7 ? "medium" : "low"`. -/
def confidenceOf (i : ℕ) : String :=
  if i < 3 then "high" else if i < 7 then "medium" else "low"

/-- `scheduled-jobs.ts` lines 179-184: flags pushed by three `if` statements
(only the `low_cash` check excludes `negative`). -/
def refreshFlags (runningCash : ℚ) (salariesToday : ℤ) (dailyExpenses : ℚ) :
    List String :=
  let flags : List String := if runningCash < 0 then ["negative"] else []
  let flags := if salariesToday > 0 then flags ++ ["salary_due"] else flags
  if runningCash < dailyExpenses * 3 ∧ "negative" ∉ flags then
    flags ++ ["low_cash"]
  else flags

/-- `part_001` lines 329-342: the `if / else if / else if` flag chain of
`generateProjections` (one flag at most). -/
def generateFlags (runningCash : ℚ) (salaryAmount : ℤ) (dailyExpenses : ℚ) :
    List String :=
  if runningCash < 0 then ["negative"]
  else if salaryAmount > 0 then ["salary_due"]
  else if runningCash < dailyExpenses * 3 then ["low_cash"]
  else []

/-- Inputs of both projection walks: the two daily averages, the monthly
salary entries, and the calendar sequences (day-of-month, day-of-week). -/
structure ProjEnv where
  dailyIncome : ℚ
  dailyExpenses : ℚ
  sals : List SalaryEntry
  dom : ℕ → ℤ
  dow : ℕ → ℕ

/-- `expectedIn = dailyIncome * weekendMultiplier` on day `i`. -/
def expectedInQ (e : ProjEnv) (i : ℕ) : ℚ :=
  e.dailyIncome * weekendMultiplier (e.dow i)

/-- `salariesToday` on day `i`. -/
def salariesToday (e : ProjEnv) (i : ℕ) : ℤ :=
  salariesOnDay e.sals (e.dom i)

/-- `expectedOut = dailyExpenses + salariesToday` on day `i`. -/
def expectedOutQ (e : ProjEnv) (i : ℕ) : ℚ :=
  e.dailyExpenses + (salariesToday e i : ℚ)

/-- `runningCash = runningCash + expectedIn - expectedOut` on day `i`. -/
def stepCash (e : ProjEnv) (i : ℕ) (r : ℚ) : ℚ :=
  r + expectedInQ e i - expectedOutQ e i

/-- The running cash after `k` steps of the walk, starting at day index `i`
with balance `r`. -/
def runningAfter (e : ProjEnv) (r : ℚ) (i : ℕ) : ℕ → ℚ
  | 0 => r
  | k + 1 => stepCash e (i + k) (runningAfter e r i k)

/-- One record upserted by `refreshProjections` (`scheduled-jobs.ts` lines
190-213): the rounded cash figures, confidence and flags for one day. -/
structure RefreshPoint where
  idx : ℕ
  projectedCash : ℤ
  expectedIn : ℤ
  expectedOut : ℤ
  confidence : String
  flags : List String
deriving DecidableEq

/-- The record built for day `i` once the running cash has been updated to `r2`. -/
def mkRefreshPoint (e : ProjEnv) (i : ℕ) (r2 : ℚ) : RefreshPoint :=
  { idx := i
    projectedCash := jsRound r2
    expectedIn := jsRound (expectedInQ e i)
    expectedOut := jsRound (expectedOutQ e i)
    confidence := confidenceOf i
    flags := refreshFlags r2 (salariesToday e i) e.dailyExpenses }

/-- The loop of `refreshProjections` (`scheduled-jobs.ts` lines 160-214):
`n` remaining iterations, current day index `i`, running cash `r`. -/
def refreshWalk (e : ProjEnv) : ℕ → ℕ → ℚ → List RefreshPoint
  | _, 0, _ => []
  | i, n + 1, r =>
    let r2 := stepCash e i r
    mkRefreshPoint e i r2 :: refreshWalk e (i + 1) n r2

/-- The ledger snapshot an engine run reads: current cash, the historical
transactions of the 30-day window, and the active staff. -/
structure OwnerState where
  currentCash : ℤ
  transactions : List Txn
  staff : List Staff
deriving DecidableEq

/-- The projection environment `refreshProjections` and `generateProjections`
derive from an owner snapshot and a start date (`dom`/`dow` sequences). -/
def envOf (owner : OwnerState) (dom : ℕ → ℤ) (dow : ℕ → ℕ) : ProjEnv :=
  { dailyIncome := dailyIncomeAvg owner.transactions
    dailyExpenses := dailyExpensesAvg owner.transactions
    sals := monthlySalaries owner.staff
    dom := dom
    dow := dow }

/-- `refreshProjections` (`scheduled-jobs.ts` lines 119-215): 30-day walk
from the owner's current cash. -/
def refreshProjections (owner : OwnerState) (dom : ℕ → ℤ) (dow : ℕ → ℕ) :
    List RefreshPoint :=
  refreshWalk (envOf owner dom dow) 0 30 (owner.currentCash : ℚ)

/-- One element of the array returned by `generateProjections` (`part_001`
line 344): `{ date, cash: Math.round(runningCash), flags, note }` (the
presentational `note` string is not modelled). -/
structure GenPoint where
  idx : ℕ
  cash : ℤ
  flags : List String
deriving DecidableEq

/-- The record pushed by `generateProjections` for day `i` with updated
running cash `r2`. -/
def mkGenPoint (e : ProjEnv) (i : ℕ) (r2 : ℚ) : GenPoint :=
  { idx := i
    cash := jsRound r2
    flags := generateFlags r2 (salariesToday e i) e.dailyExpenses }

/-- The loop of `generateProjections` (`part_001` lines 310-345). -/
def generateWalk (e : ProjEnv) : ℕ → ℕ → ℚ → List GenPoint
  | _, 0, _ => []
  | i, n + 1, r =>
    let r2 := stepCash e i r
    mkGenPoint e i r2 :: generateWalk e (i + 1) n r2

/-- `generateProjections` (`part_001` lines 273-348): 7-day walk. -/
def generateProjections (owner : OwnerState) (dom : ℕ → ℤ) (dow : ℕ → ℕ) :
    List GenPoint :=
  generateWalk (envOf owner dom dow) 0 7 (owner.currentCash : ℚ)

/-! ### Walk characterisation lemmas -/

theorem runningAfter_succ_left (e : ProjEnv) (r : ℚ) (i k : ℕ) :
    runningAfter e (stepCash e i r) (i + 1) k = runningAfter e r i (k + 1) := by
  induction k with
  | zero => simp [runningAfter]
  | succ k ih =>
      rw [runningAfter, ih, show i + 1 + k = i + (k + 1) by omega]
      rfl

theorem refreshWalk_get? (e : ProjEnv) :
    ∀ (n i k : ℕ) (r : ℚ),
      (refreshWalk e i n r).get? k =
        if k < n then
          some (mkRefreshPoint e (i + k) (runningAfter e r i (k + 1)))
        else none := by
  intro n
  induction n with
  | zero => intro i k r; simp [refreshWalk]
  | succ n ih =>
      intro i k r
      cases k with
      | zero => simp [refreshWalk, runningAfter]
      | succ k =>
          rw [refreshWalk]
          simp only [List.get?_cons_succ]
          rw [ih (i + 1) k (stepCash e i r), runningAfter_succ_left,
            show i + 1 + k = i + (k + 1) by omega]
          simp [Nat.succ_lt_succ_iff]

theorem refreshProjections_get? (owner : OwnerState) (dom : ℕ → ℤ) (dow : ℕ → ℕ) (k : ℕ) :
    (refreshProjections owner dom dow).get? k =
      if k < 30 then
        some (mkRefreshPoint (envOf owner dom dow) k
          (runningAfter (envOf owner dom dow) (owner.currentCash : ℚ) 0 (k + 1)))
      else none := by
  rw [refreshProjections, refreshWalk_get?]
  simp

theorem mem_refreshWalk (e : ProjEnv) (pt : RefreshPoint) :
    ∀ (n i : ℕ) (r : ℚ), pt ∈ refreshWalk e i n r → ∃ j r2, pt = mkRefreshPoint e j r2 := by
  intro n
  induction n with
  | zero => intro i r h; simp [refreshWalk] at h
  | succ n ih =>
      intro i r h
      rw [refreshWalk] at h
      rcases List.mem_cons.mp h with h1 | h2
      · exact ⟨i, _, h1⟩
      · exact ih (i + 1) (stepCash e i r) h2

theorem mem_generateWalk (e : ProjEnv) (pt : GenPoint) :
    ∀ (n i : ℕ) (r : ℚ), pt ∈ generateWalk e i n r → ∃ j r2, pt = mkGenPoint e j r2 := by
  intro n
  induction n with
  | zero => intro i r h; simp [generateWalk] at h
  | succ n ih =>
      intro i r h
      rw [generateWalk] at h
      rcases List.mem_cons.mp h with h1 | h2
      · exact ⟨i, _, h1⟩
      · exact ih (i + 1) (stepCash e i r) h2

theorem runningAfter_eq_sum (e : ProjEnv) (r : ℚ) (k : ℕ) :
    runningAfter e r 0 k =
      r + ∑ j in Finset.range k, (expectedInQ e j - expectedOutQ e j) := by
  induction k with
  | zero => simp [runningAfter]
  | succ k ih =>
      rw [runningAfter, stepCash, ih, Finset.sum_range_succ, Nat.zero_add]
      ring

/-! ### Rounding and flag lemmas -/

theorem jsRound_neg {q : ℚ} (h : jsRound q < 0) : q < 0 := by
  unfold jsRound at h
  by_contra hq
  push_neg at hq
  have : (0 : ℤ) ≤ ⌊q + 1/2⌋ := Int.le_floor.mpr (by push_cast; linarith)
  omega

theorem refreshFlags_of_neg {r : ℚ} (sal : ℤ) (exp : ℚ) (h : r < 0) :
    "negative" ∈ refreshFlags r sal exp ∧ "low_cash" ∉ refreshFlags r sal exp := by
  unfold refreshFlags
  simp only [if_pos h]
  by_cases hs : sal > 0 <;> simp [hs]

theorem generateFlags_of_neg {r : ℚ} (sal : ℤ) (exp : ℚ) (h : r < 0) :
    generateFlags r sal exp = ["negative"] := by
  simp [generateFlags, if_pos h]

/-! ### C1: flag precedence -/

/-- Owner with one monthly staff member paid on the 1st; the walk starts on
the 1st of the month (`dom i = i + 1`), so the salary is due on day 0 and the
running cash goes to -1000 that same day. -/
def cexOwnerC1 : OwnerState :=
  { currentCash := 0
    transactions := []
    staff := [{ name := "Ramu", salaryAmount := 1000, salaryType := "monthly",
                paymentDay := some 1, advanceBalance := 0 }] }

theorem cexC1_pt0 :
    (refreshProjections cexOwnerC1 (fun i => (i : ℤ) + 1) (fun i => i % 7)).get? 0 =
      some { idx := 0, projectedCash := -1000, expectedIn := 0, expectedOut := 1000,
             confidence := "high",
             flags := ["negative", "salary_due"] } := by
  rw [refreshProjections_get?]
  norm_num [mkRefreshPoint, runningAfter, stepCash, expectedInQ, expectedOutQ,
    salariesToday, salariesOnDay, monthlySalaries, paymentDayOrOne, envOf, cexOwnerC1,
    dailyIncomeAvg, dailyExpensesAvg, weekendMultiplier, jsRound, confidenceOf,
    refreshFlags]

/-- Claim C1, refuted: in the `refreshProjections` run for `cexOwnerC1`, day 0
has negative running cash yet its flags also contain `salary_due` (the flags
are pushed by independent `if` statements, so `negative` and `salary_due`
co-occur). -/
theorem C1_counterexample :
    ¬ (∀ pt ∈ refreshProjections cexOwnerC1 (fun i => (i : ℤ) + 1) (fun i => i % 7),
        pt.projectedCash < 0 →
          "negative" ∈ pt.flags ∧ "salary_due" ∉ pt.flags ∧ "low_cash" ∉ pt.flags) := by
  intro h
  have hmem := List.get?_mem cexC1_pt0
  have h0 := h _ hmem (by norm_num)
  simp at h0

/-- Claim C1, amended: in `generateProjections` the three flags are mutually
exclusive and a negative day carries exactly `["negative"]`; in
`refreshProjections` a negative day always carries `negative` and never
`low_cash`, but it may additionally carry `salary_due`. -/
theorem C1_amended (owner : OwnerState) (dom : ℕ → ℤ) (dow : ℕ → ℕ) :
    (∀ pt ∈ generateProjections owner dom dow, pt.cash < 0 → pt.flags = ["negative"]) ∧
    (∀ pt ∈ refreshProjections owner dom dow, pt.projectedCash < 0 →
        "negative" ∈ pt.flags ∧ "low_cash" ∉ pt.flags) := by
  constructor
  · intro pt hpt hneg
    obtain ⟨j, r2, rfl⟩ := mem_generateWalk _ _ _ _ _ hpt
    have hr : r2 < 0 := jsRound_neg hneg
    simpa [mkGenPoint] using generateFlags_of_neg
      (salariesToday (envOf owner dom dow) j) (envOf owner dom dow).dailyExpenses hr
  · intro pt hpt hneg
    obtain ⟨j, r2, rfl⟩ := mem_refreshWalk _ _ _ _ _ hpt
    have hr : r2 < 0 := jsRound_neg hneg
    simpa [mkRefreshPoint] using refreshFlags_of_neg
      (salariesToday (envOf owner dom dow) j) (envOf owner dom dow).dailyExpenses hr

/-- Witness for `C1_amended` at the concrete run of `cexOwnerC1`. -/
theorem C1_witness :
    ∃ pt ∈ refreshProjections cexOwnerC1 (fun i => (i : ℤ) + 1) (fun i => i % 7),
      pt.projectedCash < 0 ∧ "negative" ∈ pt.flags ∧ "low_cash" ∉ pt.flags := by
  refine ⟨_, List.get?_mem cexC1_pt0, by norm_num, ?_⟩
  exact (C1_amended cexOwnerC1 (fun i => (i : ℤ) + 1) (fun i => i % 7)).2 _
    (List.get?_mem cexC1_pt0) (by norm_num)

/-! ### C8: confidence decay -/

/-- Order rank of a confidence label: high < medium < low. -/
def confRank (c : String) : ℕ :=
  if c == "high" then 0 else if c == "medium" then 1 else 2

/-- Claim C8: day `i` of every `refreshProjections` run has confidence `high`
for `i < 3`, `medium` for `3 ≤ i < 7`, `low` for `i ≥ 7`, and the rank of the
confidence label never decreases (confidence never increases) with the index. -/
theorem C8_confidence (owner : OwnerState) (dom : ℕ → ℤ) (dow : ℕ → ℕ)
    (i j : ℕ) (hij : i ≤ j) (pi2 pj : RefreshPoint)
    (hi : (refreshProjections owner dom dow).get? i = some pi2)
    (hj : (refreshProjections owner dom dow).get? j = some pj) :
    pi2.confidence = (if i < 3 then "high" else if i < 7 then "medium" else "low") ∧
    confRank pi2.confidence ≤ confRank pj.confidence := by
  rw [refreshProjections_get?] at hi hj
  by_cases h30i : i < 30
  · rw [if_pos h30i] at hi
    by_cases h30j : j < 30
    · rw [if_pos h30j] at hj
      have hpi : pi2.confidence = confidenceOf i := by cases hi; rfl
      have hpj : pj.confidence = confidenceOf j := by cases hj; rfl
      refine ⟨by rw [hpi]; rfl, ?_⟩
      rw [hpi, hpj]
      unfold confidenceOf confRank
      by_cases h3i : i < 3 <;> by_cases h7i : i < 7 <;>
        by_cases h3j : j < 3 <;> by_cases h7j : j < 7 <;>
        simp [h3i, h7i, h3j, h7j] <;> omega
    · rw [if_neg h30j] at hj; cases hj
  · rw [if_neg h30i] at hi; cases hi

/-- Owner snapshot with no history and no staff, for the C8 witness run. -/
def ownerC8 : OwnerState := { currentCash := 0, transactions := [], staff := [] }

/-- Witness for `C8_confidence`: days 2 and 10 of a concrete run. -/
theorem C8_witness :
    ∃ pi2 pj : RefreshPoint,
      (refreshProjections ownerC8 (fun i => (i : ℤ) + 1) (fun i => i % 7)).get? 2 = some pi2 ∧
      (refreshProjections ownerC8 (fun i => (i : ℤ) + 1) (fun i => i % 7)).get? 10 = some pj ∧
      pi2.confidence = "high" ∧ confRank pi2.confidence ≤ confRank pj.confidence := by
  have h2 : (refreshProjections ownerC8 (fun i => (i : ℤ) + 1) (fun i => i % 7)).get? 2 =
      some (mkRefreshPoint (envOf ownerC8 (fun i => (i : ℤ) + 1) (fun i => i % 7)) 2
        (runningAfter (envOf ownerC8 (fun i => (i : ℤ) + 1) (fun i => i % 7)) 0 0 3)) := by
    rw [refreshProjections_get?]; norm_num [ownerC8]
  have h10 : (refreshProjections ownerC8 (fun i => (i : ℤ) + 1) (fun i => i % 7)).get? 10 =
      some (mkRefreshPoint (envOf ownerC8 (fun i => (i : ℤ) + 1) (fun i => i % 7)) 10
        (runningAfter (envOf ownerC8 (fun i => (i : ℤ) + 1) (fun i => i % 7)) 0 0 11)) := by
    rw [refreshProjections_get?]; norm_num [ownerC8]
  have hc := C8_confidence ownerC8 (fun i => (i : ℤ) + 1) (fun i => i % 7) 2 10
    (by norm_num) _ _ h2 h10
  exact ⟨_, _, h2, h10, by simpa using hc.1, hc.2⟩

/-! ### C3: cash identity -/

/-- Claim C3, amended: the stored `projectedCash` of day `k` is the rounding
of the exact running cash after `k + 1` updates; the exact running cash obeys
the identity `running (k+1) = running k + expectedIn k - expectedOut k` and
the cumulative closed form (it carries across days and is never reset). The
three stored fields are each rounded separately, which is what breaks the
identity on the stored integers (`C3_counterexample`). -/
theorem C3_amended (owner : OwnerState) (dom : ℕ → ℤ) (dow : ℕ → ℕ)
    (k : ℕ) (pt : RefreshPoint)
    (hpt : (refreshProjections owner dom dow).get? k = some pt) :
    pt.projectedCash =
      jsRound (runningAfter (envOf owner dom dow) (owner.currentCash : ℚ) 0 (k + 1)) ∧
    pt.expectedIn = jsRound (expectedInQ (envOf owner dom dow) k) ∧
    pt.expectedOut = jsRound (expectedOutQ (envOf owner dom dow) k) ∧
    runningAfter (envOf owner dom dow) (owner.currentCash : ℚ) 0 (k + 1) =
      runningAfter (envOf owner dom dow) (owner.currentCash : ℚ) 0 k
        + expectedInQ (envOf owner dom dow) k - expectedOutQ (envOf owner dom dow) k ∧
    runningAfter (envOf owner dom dow) (owner.currentCash : ℚ) 0 (k + 1) =
      (owner.currentCash : ℚ) + ∑ j in Finset.range (k + 1),
        (expectedInQ (envOf owner dom dow) j - expectedOutQ (envOf owner dom dow) j) := by
  rw [refreshProjections_get?] at hpt
  by_cases h30 : k < 30
  · rw [if_pos h30] at hpt
    cases hpt
    refine ⟨rfl, rfl, rfl, ?_, runningAfter_eq_sum _ _ _⟩
    rw [show k + 1 = Nat.succ k from rfl, runningAfter, stepCash, Nat.zero_add]
  · rw [if_neg h30] at hpt; cases hpt

/-- Owner whose 30-day history is one income of 10, so `dailyIncome = 1/3`;
rounding each stored field separately then breaks the stored-value identity. -/
def cexOwnerC3 : OwnerState :=
  { currentCash := 0
    transactions := [{ type := "income", amount := 10 }]
    staff := [] }

theorem cexC3_pt0 :
    (refreshProjections cexOwnerC3 (fun i => (i : ℤ) + 1) (fun i => (i + 1) % 7)).get? 0 =
      some { idx := 0, projectedCash := 0, expectedIn := 0, expectedOut := 0,
             confidence := "high", flags := [] } := by
  rw [refreshProjections_get?]
  simp only [mkRefreshPoint, runningAfter, stepCash, expectedInQ, expectedOutQ,
    salariesToday, salariesOnDay, monthlySalaries, envOf, cexOwnerC3,
    dailyIncomeAvg, dailyExpensesAvg, weekendMultiplier, confidenceOf, refreshFlags]
  simp
  norm_num [jsRound]

theorem cexC3_pt1 :
    (refreshProjections cexOwnerC3 (fun i => (i : ℤ) + 1) (fun i => (i + 1) % 7)).get? 1 =
      some { idx := 1, projectedCash := 1, expectedIn := 0, expectedOut := 0,
             confidence := "high", flags := [] } := by
  rw [refreshProjections_get?]
  simp only [mkRefreshPoint, runningAfter, stepCash, expectedInQ, expectedOutQ,
    salariesToday, salariesOnDay, monthlySalaries, envOf, cexOwnerC3,
    dailyIncomeAvg, dailyExpensesAvg, weekendMultiplier, confidenceOf, refreshFlags]
  simp
  norm_num [jsRound]

/-- Claim C3, refuted on the stored (rounded) values: with `dailyIncome = 1/3`
the stored series starts `0, 1` with stored `expectedIn = expectedOut = 0`, so
`projectedCash[1] ≠ projectedCash[0] + expectedIn[1] - expectedOut[1]`. -/
theorem C3_counterexample :
    ¬ (∀ (pt0 pt1 : RefreshPoint),
        (refreshProjections cexOwnerC3 (fun i => (i : ℤ) + 1) (fun i => (i + 1) % 7)).get? 0 =
          some pt0 →
        (refreshProjections cexOwnerC3 (fun i => (i : ℤ) + 1) (fun i => (i + 1) % 7)).get? 1 =
          some pt1 →
        pt1.projectedCash = pt0.projectedCash + pt1.expectedIn - pt1.expectedOut) := by
  intro h
  have := h _ _ cexC3_pt0 cexC3_pt1
  simp at this

/-- Witness for `C3_amended` at day 0 of the `cexOwnerC3` run. -/
theorem C3_witness :
    ∃ pt : RefreshPoint,
      (refreshProjections cexOwnerC3 (fun i => (i : ℤ) + 1) (fun i => (i + 1) % 7)).get? 0 =
        some pt ∧
      pt.projectedCash =
        jsRound (runningAfter (envOf cexOwnerC3 (fun i => (i : ℤ) + 1) (fun i => (i + 1) % 7))
          (cexOwnerC3.currentCash : ℚ) 0 1) := by
  exact ⟨_, cexC3_pt0,
    (C3_amended cexOwnerC3 (fun i => (i : ℤ) + 1) (fun i => (i + 1) % 7) 0 _ cexC3_pt0).1⟩

/-! ### C2: advance deduction is not floored at zero -/

/-- A monthly staff member whose outstanding advance (1500) exceeds the salary
(1000): the engines schedule `1000 - 1500 = -500` on payment day 5. -/
def cexStaffC2 : Staff :=
  { name := "Ramu", salaryAmount := 1000, salaryType := "monthly",
    paymentDay := some 5, advanceBalance := 1500 }

/-- Owner holding `cexStaffC2`, no transactions, zero cash. -/
def cexOwnerC2 : OwnerState :=
  { currentCash := 0, transactions := [], staff := [cexStaffC2] }

/-- Claim C2, refuted: with advance 1500 against salary 1000 the scheduled
obligation on the payment day is -500, not `max 0 (1000 - 1500) = 0`, and the
30-day walk started on the 1st (`dom i = i + 1`) accordingly shows projected
cash rising to +500 on day 4 (the 5th): the negative obligation injects cash. -/
theorem C2_counterexample :
    salariesOnDay (monthlySalaries [cexStaffC2]) 5 = -500 ∧
    max 0 (cexStaffC2.salaryAmount - cexStaffC2.advanceBalance) = 0 ∧
    salariesOnDay (monthlySalaries [cexStaffC2]) 5 ≠
      max 0 (cexStaffC2.salaryAmount - cexStaffC2.advanceBalance) ∧
    ((refreshProjections cexOwnerC2 (fun i => (i : ℤ) + 1) (fun i => i % 7)).get? 4).map
      (fun pt => pt.projectedCash) = some 500 := by
  refine ⟨by simp [salariesOnDay, monthlySalaries, cexStaffC2, paymentDayOrOne],
    by simp [cexStaffC2],
    by simp [salariesOnDay, monthlySalaries, cexStaffC2, paymentDayOrOne], ?_⟩
  rw [refreshProjections_get?]
  simp only [mkRefreshPoint, runningAfter, stepCash, expectedInQ, expectedOutQ,
    salariesToday, salariesOnDay, monthlySalaries, paymentDayOrOne, envOf, cexOwnerC2,
    cexStaffC2, dailyIncomeAvg, dailyExpensesAvg, weekendMultiplier, confidenceOf]
  simp
  norm_num [jsRound]

/-- Claim C2, amended: the obligation both engines schedule for a monthly
staff member on their payment day is `salaryAmount - advanceBalance` with no
floor at zero, and it is negative whenever the advance exceeds the salary. -/
theorem C2_amended (s : Staff) (h : s.salaryType = "monthly") :
    monthlySalaries [s] =
      [{ amount := s.salaryAmount - s.advanceBalance, day := paymentDayOrOne s.paymentDay }] ∧
    salariesOnDay (monthlySalaries [s]) (paymentDayOrOne s.paymentDay) =
      s.salaryAmount - s.advanceBalance ∧
    (s.salaryAmount < s.advanceBalance →
      salariesOnDay (monthlySalaries [s]) (paymentDayOrOne s.paymentDay) < 0) := by
  refine ⟨by simp [monthlySalaries, h], ?_, ?_⟩
  · simp [salariesOnDay, monthlySalaries, h]
  · intro hlt
    simp [salariesOnDay, monthlySalaries, h]
    omega

/-- Witness for `C2_amended` at `cexStaffC2`. -/
theorem C2_witness :
    salariesOnDay (monthlySalaries [cexStaffC2]) (paymentDayOrOne cexStaffC2.paymentDay) < 0 := by
  exact (C2_amended cexStaffC2 rfl).2.2 (by norm_num [cexStaffC2])

/-! ### C4: the expense average excludes salary and advance amounts -/

/-- A salary transaction of 3000 inside the 30-day window. -/
def cexTxnC4 : Txn := { type := "salary", amount := 3000 }

/-- Claim C4, refuted: the engines average only `expense`-kind amounts, so a
lone salary transaction of 3000 yields `dailyExpensesAvg = 0`, while the
spec's aggregate (expense+salary+advance over `windowDays = 30`) yields 100. -/
theorem C4_counterexample :
    dailyExpensesAvg [cexTxnC4] = 0 ∧
    specDailyExpenseAvg [cexTxnC4] 30 = 100 ∧
    dailyExpensesAvg [cexTxnC4] ≠ specDailyExpenseAvg [cexTxnC4] 30 := by
  refine ⟨by simp [dailyExpensesAvg, cexTxnC4], ?_, ?_⟩
  · simp [specDailyExpenseAvg, cexTxnC4]
    norm_num
  · simp [dailyExpensesAvg, specDailyExpenseAvg, cexTxnC4]
    norm_num

/-- Claim C4, amended: `dailyExpensesAvg` is the sum of `expense`-kind amounts
only, over the fixed divisor 30 — adding a salary, advance or income
transaction leaves it unchanged, while an expense of amount `a` adds `a/30`;
`dailyIncomeAvg` responds only to `income`-kind amounts the same way. -/
theorem C4_amended (txns : List Txn) (t : Txn) :
    (t.type = "salary" ∨ t.type = "advance" →
      dailyExpensesAvg (t :: txns) = dailyExpensesAvg txns) ∧
    (t.type = "expense" →
      dailyExpensesAvg (t :: txns) = dailyExpensesAvg txns + (t.amount : ℚ) / 30) ∧
    (t.type = "income" → dailyExpensesAvg (t :: txns) = dailyExpensesAvg txns) ∧
    (t.type = "income" →
      dailyIncomeAvg (t :: txns) = dailyIncomeAvg txns + (t.amount : ℚ) / 30) ∧
    (t.type = "salary" ∨ t.type = "advance" → dailyIncomeAvg (t :: txns) = dailyIncomeAvg txns) := by
  refine ⟨?_, ?_, ?_, ?_, ?_⟩
  · rintro (h | h) <;> simp [dailyExpensesAvg, List.filter_cons, h]
  · intro h
    simp [dailyExpensesAvg, List.filter_cons, h]
    ring
  · intro h
    simp [dailyExpensesAvg, List.filter_cons, h]
  · intro h
    simp [dailyIncomeAvg, List.filter_cons, h]
    ring
  · rintro (h | h) <;> simp [dailyIncomeAvg, List.filter_cons, h]

/-- Witness for `C4_amended`: a salary transaction leaves the expense average
unchanged; an income of 60 adds 2 to the income average. -/
theorem C4_witness :
    dailyExpensesAvg [cexTxnC4] = dailyExpensesAvg [] ∧
    dailyIncomeAvg ({ type := "income", amount := 60 } :: ([] : List Txn)) =
      dailyIncomeAvg [] + (60 : ℚ) / 30 := by
  exact ⟨(C4_amended [] cexTxnC4).1 (Or.inl rfl),
    (C4_amended [] { type := "income", amount := 60 }).2.2.2.1 rfl⟩

/-! ### Receivable tracker (`transaction.ts`, `updateReceivable`) -/

/-- A receivable row (table `receivable`); `createdAt`/`paidAt` are
timestamps in milliseconds. -/
structure Receivable where
  amount : ℤ
  amountPaid : ℤ
  status : String
  createdAt : ℤ
  paidAt : Option ℤ
deriving DecidableEq

/-- The `status: { in: ["pending", "partial"] }` filter of the
`findFirst` query (`transaction.ts` lines 200-207). -/
def isOpenRec (r : Receivable) : Bool :=
  r.status == "pending" || r.status == "partial"

/-- The payment application of `transaction.ts` lines 210-232: full payment
(`remaining <= 0`) clamps `amountPaid` to `amount`, sets `status` to `paid`
and `paidAt` to now; otherwise `amountPaid` grows and `status` is `partial`. -/
def applyPaymentTo (r : Receivable) (amount now : ℤ) : Receivable :=
  let newAmountPaid := r.amountPaid + amount
  let remaining := r.amount - newAmountPaid
  if remaining ≤ 0 then
    { r with amountPaid := r.amount, status := "paid", paidAt := some now }
  else
    { r with amountPaid := newAmountPaid, status := "partial" }

/-- `updateReceivable` (`transaction.ts` lines 194-246) acting on the
customer's receivables listed in `createdAt` ascending order (the query's
`orderBy: { createdAt: "asc" }`): the first open receivable, if any, receives
the whole payment; everything else is untouched. -/
def updateReceivable : List Receivable → ℤ → ℤ → List Receivable
  | [], _, _ => []
  | r :: rs, amount, now =>
    if isOpenRec r then applyPaymentTo r amount now :: rs
    else r :: updateReceivable rs amount now

/-- Index of the receivable selected by the `findFirst` query, if any. -/
def firstOpenIdx : List Receivable → Option ℕ
  | [] => none
  | r :: rs => if isOpenRec r then some 0 else (firstOpenIdx rs).map (· + 1)

/-- `transaction.ts` line 242: `daysSinceCreated <= 7 ? 80 :
daysSinceCreated <= 14 ? 60 : 40`. -/
def reliabilityScore (daysToPay : ℤ) : ℤ :=
  if daysToPay ≤ 7 then 80 else if daysToPay ≤ 14 then 60 else 40

theorem isOpenRec_of_paid {r : Receivable} (h : r.status = "paid") : isOpenRec r = false := by
  simp [isOpenRec, h]

/-- Claim C5: a payment whose cumulative total reaches or exceeds the original
amount yields status `paid`, `paidAt` set, and `amountPaid` clamped to
`amount`; a receivable with status `paid` is never selected again, so it is
left unchanged by every further payment application; and `amountPaid ≤ amount`
is preserved by `updateReceivable`. -/
theorem C5_paid_terminal (rs : List Receivable) (amt now : ℤ) :
    (∀ r : Receivable, r.amount ≤ r.amountPaid + amt →
      applyPaymentTo r amt now =
        { r with amountPaid := r.amount, status := "paid", paidAt := some now }) ∧
    (∀ i r, rs.get? i = some r → r.status = "paid" →
      (updateReceivable rs amt now).get? i = some r) ∧
    ((∀ r ∈ rs, r.amountPaid ≤ r.amount) →
      ∀ r ∈ updateReceivable rs amt now, r.amountPaid ≤ r.amount) := by
  refine ⟨?_, ?_, ?_⟩
  · intro r h
    simp only [applyPaymentTo]
    rw [if_pos (by omega)]
  · induction rs with
    | nil => intro i r h; simp at h
    | cons a l ih =>
        intro i r h hpaid
        cases i with
        | zero =>
            simp at h
            subst h
            rw [updateReceivable, if_neg (by simp [isOpenRec_of_paid hpaid])]
            rfl
        | succ i =>
            simp only [List.get?_cons_succ] at h
            rw [updateReceivable]
            by_cases ha : isOpenRec a
            · rw [if_pos ha]
              simpa using h
            · rw [if_neg ha]
              simpa using ih i r h hpaid
  · induction rs with
    | nil => intro _ r h; simp [updateReceivable] at h
    | cons a l ih =>
        intro hinv r h
        rw [updateReceivable] at h
        by_cases ha : isOpenRec a
        · rw [if_pos ha] at h
          rcases List.mem_cons.mp h with h1 | h2
          · subst h1
            simp only [applyPaymentTo]
            by_cases hr : a.amount - (a.amountPaid + amt) ≤ 0
            · rw [if_pos hr]
            · rw [if_neg hr]
              simp
              omega
          · exact hinv r (List.mem_cons_of_mem _ h2)
        · rw [if_neg ha] at h
          rcases List.mem_cons.mp h with h1 | h2
          · subst h1
            exact hinv r (List.mem_cons_self _ _)
          · exact ih (fun x hx => hinv x (List.mem_cons_of_mem _ hx)) r h2

/-- Witness for `C5_paid_terminal`: the spec's own scenario — a receivable of
8000 with 3000 already paid receives 6000; `amountPaid` is clamped to 8000. -/
theorem C5_witness :
    applyPaymentTo { amount := 8000, amountPaid := 3000, status := "partial",
                     createdAt := 0, paidAt := none } 6000 99 =
      { amount := 8000, amountPaid := 8000, status := "paid",
        createdAt := 0, paidAt := some 99 } := by
  have h := (C5_paid_terminal [] 6000 99).1
    { amount := 8000, amountPaid := 3000, status := "partial", createdAt := 0, paidAt := none }
    (by norm_num)
  simpa using h

/-- Claim C10: a payment goes entirely to the single earliest-created open
receivable (the list is in `createdAt` order; under sortedness the selected
row has minimal `createdAt` among open rows); every other row is returned
unchanged, and with no open receivable the whole list is unchanged. -/
theorem C10_frame (rs : List Receivable) (amt now : ℤ) :
    (firstOpenIdx rs = none ↔ ∀ r ∈ rs, isOpenRec r = false) ∧
    (firstOpenIdx rs = none → updateReceivable rs amt now = rs) ∧
    (∀ i, firstOpenIdx rs = some i →
      (∀ j, j ≠ i → (updateReceivable rs amt now).get? j = rs.get? j) ∧
      (updateReceivable rs amt now).get? i =
        (rs.get? i).map (fun r => applyPaymentTo r amt now) ∧
      (∀ r, rs.get? i = some r → isOpenRec r = true) ∧
      (List.Pairwise (fun a b => a.createdAt ≤ b.createdAt) rs →
        ∀ ri, rs.get? i = some ri → ∀ r ∈ rs, isOpenRec r = true →
          ri.createdAt ≤ r.createdAt)) := by
  induction rs with
  | nil =>
      refine ⟨by simp [firstOpenIdx], by intro _; rfl, ?_⟩
      intro i hi
      simp [firstOpenIdx] at hi
  | cons a l ih =>
      by_cases ha : isOpenRec a
      · refine ⟨?_, ?_, ?_⟩
        · constructor
          · intro h
            rw [firstOpenIdx, if_pos ha] at h
            cases h
          · intro h
            exact absurd (h a (List.mem_cons_self _ _)) (by simp [ha])
        · intro h
          rw [firstOpenIdx, if_pos ha] at h
          cases h
        · intro i hi
          rw [firstOpenIdx, if_pos ha] at hi
          cases hi
          refine ⟨?_, ?_, ?_, ?_⟩
          · intro j hj
            rw [updateReceivable, if_pos ha]
            cases j with
            | zero => exact absurd rfl hj
            | succ j => simp
          · rw [updateReceivable, if_pos ha]
            simp
          · intro r hr
            simp at hr
            subst hr
            exact ha
          · intro hp ri hri r hr hopen
            simp at hri
            subst hri
            rcases List.mem_cons.mp hr with h1 | h2
            · subst h1; rfl
            · exact (List.pairwise_cons.mp hp).1 r h2
      · obtain ⟨ih1, ih2, ih3⟩ := ih
        refine ⟨?_, ?_, ?_⟩
        · rw [firstOpenIdx, if_neg ha]
          constructor
          · intro h
            have hl : firstOpenIdx l = none := by
              cases hfo : firstOpenIdx l with
              | none => rfl
              | some k => rw [hfo] at h; simp at h
            intro r hr
            rcases List.mem_cons.mp hr with h1 | h2
            · subst h1; simpa using ha
            · exact ih1.mp hl r h2
          · intro h
            have : firstOpenIdx l = none :=
              ih1.mpr (fun r hr => h r (List.mem_cons_of_mem _ hr))
            rw [this]
            rfl
        · intro h
          rw [firstOpenIdx, if_neg ha] at h
          have hl : firstOpenIdx l = none := by
            cases hfo : firstOpenIdx l with
            | none => rfl
            | some k => rw [hfo] at h; simp at h
          rw [updateReceivable, if_neg ha, ih2 hl]
        · intro i hi
          rw [firstOpenIdx, if_neg ha] at hi
          cases hfo : firstOpenIdx l with
          | none => rw [hfo] at hi; simp at hi
          | some k =>
              rw [hfo] at hi
              simp at hi
              subst hi
              obtain ⟨g1, g2, g3, g4⟩ := ih3 k hfo
              refine ⟨?_, ?_, ?_, ?_⟩
              · intro j hj
                rw [updateReceivable, if_neg ha]
                cases j with
                | zero => simp
                | succ j =>
                    simp only [List.get?_cons_succ]
                    exact g1 j (by omega)
              · rw [updateReceivable, if_neg ha]
                simpa using g2
              · intro r hr
                simp only [List.get?_cons_succ] at hr
                exact g3 r hr
              · intro hp ri hri r hr hopen
                simp only [List.get?_cons_succ] at hri
                rcases List.mem_cons.mp hr with h1 | h2
                · subst h1
                  exact absurd hopen (by simp [ha])
                · exact g4 (List.pairwise_cons.mp hp).2 ri hri r h2 hopen

/-- Three receivables of one customer in `createdAt` order: a paid one, then
two pending ones — the payment must go entirely to index 1. -/
def rsC10 : List Receivable :=
  [{ amount := 100, amountPaid := 100, status := "paid", createdAt := 1, paidAt := some 3 },
   { amount := 500, amountPaid := 0, status := "pending", createdAt := 4, paidAt := none },
   { amount := 700, amountPaid := 0, status := "pending", createdAt := 9, paidAt := none }]

/-- Witness for `C10_frame` on `rsC10`. -/
theorem C10_witness :
    firstOpenIdx rsC10 = some 1 ∧
    (updateReceivable rsC10 500 9).get? 0 = rsC10.get? 0 ∧
    (updateReceivable rsC10 500 9).get? 2 = rsC10.get? 2 ∧
    (updateReceivable rsC10 500 9).get? 1 =
      (rsC10.get? 1).map (fun r => applyPaymentTo r 500 9) := by
  have h1 : firstOpenIdx rsC10 = some 1 := by
    simp [firstOpenIdx, rsC10, isOpenRec]
  obtain ⟨g1, g2, _, _⟩ := (C10_frame rsC10 500 9).2.2 1 h1
  exact ⟨h1, g1 0 (by omega), g1 2 (by omega), g2⟩

/-- Claim C9: the reliability score is exactly three buckets —
`daysToPay ≤ 7 → 80`, `8 ≤ daysToPay ≤ 14 → 60`, `daysToPay ≥ 15 → 40` —
with the boundary values 7, 8, 14, 15 mapping to 80, 60, 60, 40. -/
theorem C9_reliability (d : ℤ) :
    reliabilityScore 7 = 80 ∧ reliabilityScore 8 = 60 ∧ reliabilityScore 14 = 60 ∧
    reliabilityScore 15 = 40 ∧
    (d ≤ 7 → reliabilityScore d = 80) ∧
    (8 ≤ d → d ≤ 14 → reliabilityScore d = 60) ∧
    (15 ≤ d → reliabilityScore d = 40) := by
  refine ⟨by norm_num [reliabilityScore], by norm_num [reliabilityScore],
    by norm_num [reliabilityScore], by norm_num [reliabilityScore], ?_, ?_, ?_⟩
  · intro h
    rw [reliabilityScore, if_pos h]
  · intro h1 h2
    rw [reliabilityScore, if_neg (by omega), if_pos h2]
  · intro h
    rw [reliabilityScore, if_neg (by omega), if_neg (by omega)]

/-- Witness for `C9_reliability` inside each bucket. -/
theorem C9_witness :
    reliabilityScore 3 = 80 ∧ reliabilityScore 10 = 60 ∧ reliabilityScore 30 = 40 := by
  exact ⟨(C9_reliability 3).2.2.2.2.1 (by norm_num),
    (C9_reliability 10).2.2.2.2.2.1 (by norm_num) (by norm_num),
    (C9_reliability 30).2.2.2.2.2.2 (by norm_num)⟩

/-! ### Health score (`briefs.ts`, `calculateHealthScore`) -/

/-- The snapshot `calculateHealthScore` reads: current cash, this and last
month's transactions, the owner's receivables, and `now.getDate()`. -/
structure HealthInput where
  currentCash : ℤ
  thisMonthTxns : List Txn
  lastMonthTxns : List Txn
  receivables : List Receivable
  nowDate : ℕ
deriving DecidableEq

/-- `txns.filter(p).reduce((s, t) => s + t.amount, 0)`. -/
def sumAmounts (txns : List Txn) (p : Txn → Bool) : ℤ :=
  ((txns.filter p).map (fun t => t.amount)).sum

/-- `briefs.ts` line 43: this month's `income`-kind sum. -/
def thisMonthIncome (inp : HealthInput) : ℤ :=
  sumAmounts inp.thisMonthTxns (fun t => t.type == "income")

/-- `briefs.ts` line 44: this month's sum over `t.type !== "income"`. -/
def thisMonthExpenses (inp : HealthInput) : ℤ :=
  sumAmounts inp.thisMonthTxns (fun t => !(t.type == "income"))

/-- `briefs.ts` line 45. -/
def lastMonthIncome (inp : HealthInput) : ℤ :=
  sumAmounts inp.lastMonthTxns (fun t => t.type == "income")

/-- `briefs.ts` line 46. -/
def lastMonthExpenses (inp : HealthInput) : ℤ :=
  sumAmounts inp.lastMonthTxns (fun t => !(t.type == "income"))

/-- `1000 * 60 * 60 * 24` milliseconds. -/
def msPerDay : ℤ := 86400000

/-- `briefs.ts` line 54: `r.paidAt ? Math.floor((paidAt - createdAt) / msPerDay) : 30`. -/
def collectionDays (r : Receivable) : ℚ :=
  match r.paidAt with
  | some t => ((⌊((t - r.createdAt : ℚ)) / (msPerDay : ℚ)⌋ : ℤ) : ℚ)
  | none => 30

/-- `briefs.ts` lines 52-57: average days to pay over the `paid` receivables,
falling back to 15 when there are none. -/
def avgCollectionDays (inp : HealthInput) : ℚ :=
  let paid := inp.receivables.filter (fun r => r.status == "paid")
  if 0 < paid.length then ((paid.map collectionDays).sum) / paid.length else 15

/-- `Math.min(100, Math.max(0, x))`. -/
def clamp100 (x : ℚ) : ℚ := min 100 (max 0 x)

/-- `briefs.ts` line 60: `thisMonthExpenses / Math.max(now.getDate(), 1)`. -/
def dailyExpensesNow (inp : HealthInput) : ℚ :=
  (thisMonthExpenses inp : ℚ) / ((max inp.nowDate 1 : ℕ) : ℚ)

/-- `briefs.ts` line 61: `dailyExpenses > 0 ? Math.floor(currentCash / dailyExpenses) : 30`. -/
def runwayDays (inp : HealthInput) : ℤ :=
  if 0 < dailyExpensesNow inp then ⌊(inp.currentCash : ℚ) / dailyExpensesNow inp⌋ else 30

/-- `briefs.ts` line 62 (3.33 idealised as the exact rational 333/100). -/
def cashRunwayScore (inp : HealthInput) : ℚ :=
  clamp100 ((runwayDays inp : ℚ) * (333/100))

/-- `briefs.ts` line 65. -/
def profitMargin (inp : HealthInput) : ℚ :=
  if 0 < thisMonthIncome inp then
    (((thisMonthIncome inp - thisMonthExpenses inp : ℤ) : ℚ) / (thisMonthIncome inp : ℚ)) * 100
  else 0

/-- `briefs.ts` line 66. -/
def profitMarginScore (inp : HealthInput) : ℚ :=
  clamp100 (profitMargin inp * (5/2))

/-- `briefs.ts` line 69. -/
def collectionScore (inp : HealthInput) : ℚ :=
  clamp100 (100 - avgCollectionDays inp * (333/100))

/-- `briefs.ts` line 72: this-over-last month expense ratio, 1 when last
month had no expenses. -/
def expenseRatioOf (inp : HealthInput) : ℚ :=
  if 0 < lastMonthExpenses inp then
    (thisMonthExpenses inp : ℚ) / (lastMonthExpenses inp : ℚ)
  else 1

/-- `briefs.ts` line 73. -/
def expenseControlScore (inp : HealthInput) : ℚ :=
  clamp100 (100 - (expenseRatioOf inp - 1) * 100)

/-- `briefs.ts` line 76. -/
def growthRate (inp : HealthInput) : ℚ :=
  if 0 < lastMonthIncome inp then
    (((thisMonthIncome inp - lastMonthIncome inp : ℤ) : ℚ) / (lastMonthIncome inp : ℚ)) * 100
  else 0

/-- `briefs.ts` line 77. -/
def growthScore (inp : HealthInput) : ℚ :=
  clamp100 (50 + growthRate inp * 2)

/-- `briefs.ts` lines 80-86: the weighted sum, rounded (weights 0.25, 0.25,
0.15, 0.15, 0.20 idealised as exact rationals). -/
def weightedScore (inp : HealthInput) : ℤ :=
  jsRound (cashRunwayScore inp * (1/4) + profitMarginScore inp * (1/4) +
    collectionScore inp * (3/20) + expenseControlScore inp * (3/20) +
    growthScore inp * (1/5))

/-- `briefs.ts` lines 88-91: status thresholds, inclusive lower bounds. -/
def healthStatus (inp : HealthInput) : String :=
  if 80 ≤ weightedScore inp then "excellent"
  else if 60 ≤ weightedScore inp then "good"
  else if 40 ≤ weightedScore inp then "caution"
  else "critical"

theorem clamp100_bounds (x : ℚ) : 0 ≤ clamp100 x ∧ clamp100 x ≤ 100 :=
  ⟨le_min (by norm_num) (le_max_left 0 x), min_le_left 100 (max 0 x)⟩

theorem jsRound_bounds {q : ℚ} (h0 : 0 ≤ q) (h1 : q ≤ 100) :
    0 ≤ jsRound q ∧ jsRound q ≤ 100 := by
  unfold jsRound
  constructor
  · exact Int.le_floor.mpr (by push_cast; linarith)
  · have h2 : ⌊q + 1/2⌋ ≤ ⌊(100 : ℚ) + 1/2⌋ := Int.floor_le_floor (by linarith)
    have h3 : ⌊(100 : ℚ) + 1/2⌋ = 100 := by norm_num
    omega

/-- Claim C6: for every input, each of the five sub-scores and the final
weighted score lie in [0, 100]; the final score is the weighted sum rounded
to the nearest integer; and each numeric degeneracy (zero expenses, zero
income, no paid receivables, zero last-month figures) takes its documented
fallback (30, 0, 15, 1, 0 respectively). -/
theorem C6_health (inp : HealthInput) :
    (0 ≤ cashRunwayScore inp ∧ cashRunwayScore inp ≤ 100) ∧
    (0 ≤ profitMarginScore inp ∧ profitMarginScore inp ≤ 100) ∧
    (0 ≤ collectionScore inp ∧ collectionScore inp ≤ 100) ∧
    (0 ≤ expenseControlScore inp ∧ expenseControlScore inp ≤ 100) ∧
    (0 ≤ growthScore inp ∧ growthScore inp ≤ 100) ∧
    (0 ≤ weightedScore inp ∧ weightedScore inp ≤ 100) ∧
    weightedScore inp = jsRound (cashRunwayScore inp * (1/4) + profitMarginScore inp * (1/4) +
      collectionScore inp * (3/20) + expenseControlScore inp * (3/20) +
      growthScore inp * (1/5)) ∧
    (dailyExpensesNow inp ≤ 0 → runwayDays inp = 30) ∧
    (thisMonthIncome inp ≤ 0 → profitMargin inp = 0) ∧
    ((inp.receivables.filter (fun r => r.status == "paid")).length = 0 →
      avgCollectionDays inp = 15) ∧
    (lastMonthExpenses inp ≤ 0 → expenseRatioOf inp = 1) ∧
    (lastMonthIncome inp ≤ 0 → growthRate inp = 0) := by
  obtain ⟨b1, b1h⟩ := clamp100_bounds ((runwayDays inp : ℚ) * (333/100))
  obtain ⟨b2, b2h⟩ := clamp100_bounds (profitMargin inp * (5/2))
  obtain ⟨b3, b3h⟩ := clamp100_bounds (100 - avgCollectionDays inp * (333/100))
  obtain ⟨b4, b4h⟩ := clamp100_bounds (100 - (expenseRatioOf inp - 1) * 100)
  obtain ⟨b5, b5h⟩ := clamp100_bounds (50 + growthRate inp * 2)
  have hsum0 : 0 ≤ cashRunwayScore inp * (1/4) + profitMarginScore inp * (1/4) +
      collectionScore inp * (3/20) + expenseControlScore inp * (3/20) +
      growthScore inp * (1/5) := by
    unfold cashRunwayScore profitMarginScore collectionScore expenseControlScore growthScore
    linarith
  have hsum1 : cashRunwayScore inp * (1/4) + profitMarginScore inp * (1/4) +
      collectionScore inp * (3/20) + expenseControlScore inp * (3/20) +
      growthScore inp * (1/5) ≤ 100 := by
    unfold cashRunwayScore profitMarginScore collectionScore expenseControlScore growthScore
    linarith
  refine ⟨⟨b1, b1h⟩, ⟨b2, b2h⟩, ⟨b3, b3h⟩, ⟨b4, b4h⟩, ⟨b5, b5h⟩,
    jsRound_bounds hsum0 hsum1, rfl, ?_, ?_, ?_, ?_, ?_⟩
  · intro h
    rw [runwayDays, if_neg (not_lt.mpr h)]
  · intro h
    rw [profitMargin, if_neg (by omega)]
  · intro h
    rw [avgCollectionDays]
    simp only [h]
    norm_num
  · intro h
    rw [expenseRatioOf, if_neg (by omega)]
  · intro h
    rw [growthRate, if_neg (by omega)]

/-- The fully degenerate snapshot: no cash, no transactions, no receivables. -/
def inpC6 : HealthInput :=
  { currentCash := 0, thisMonthTxns := [], lastMonthTxns := [], receivables := [],
    nowDate := 1 }

/-- Witness for `C6_health` at the fully degenerate input: every fallback
fires and the final score stays inside [0, 100]. -/
theorem C6_witness :
    profitMargin inpC6 = 0 ∧ growthRate inpC6 = 0 ∧ expenseRatioOf inpC6 = 1 ∧
    avgCollectionDays inpC6 = 15 ∧ runwayDays inpC6 = 30 ∧
    0 ≤ weightedScore inpC6 ∧ weightedScore inpC6 ≤ 100 := by
  have h := C6_health inpC6
  refine ⟨h.2.2.2.2.2.2.2.2.1 ?_, h.2.2.2.2.2.2.2.2.2.2.2 ?_,
    h.2.2.2.2.2.2.2.2.2.2.1 ?_, h.2.2.2.2.2.2.2.2.2.1 ?_,
    h.2.2.2.2.2.2.2.1 ?_, h.2.2.2.2.2.1.1, h.2.2.2.2.2.1.2⟩
  · simp [thisMonthIncome, sumAmounts, inpC6]
  · simp [lastMonthIncome, sumAmounts, inpC6]
  · simp [lastMonthExpenses, sumAmounts, inpC6]
  · simp [inpC6]
  · simp [dailyExpensesNow, thisMonthExpenses, sumAmounts, inpC6]

/-! ### C7: days-until-salary uses a fixed 30-day month in the alert paths -/

/-- JavaScript truthiness of the nullable `paymentDay` (`null` and `0` falsy). -/
def pdTruthy (p : Option ℤ) : Bool :=
  match p with
  | none => false
  | some d => !(d == 0)

/-- `brief.ts` line 166 (`getWatchItems`): `salaryDay >= today ? salaryDay -
today : 30 - today + salaryDay`. -/
def watchDaysLeft (salaryDay today : ℤ) : ℤ :=
  if salaryDay ≥ today then salaryDay - today else 30 - today + salaryDay

/-- One element of the `daysUntilSalary` array of `getWatchItems`. -/
structure WatchEntry where
  name : String
  daysLeft : ℤ
  amount : ℤ
deriving DecidableEq

/-- `brief.ts` lines 161-169: monthly staff with truthy `paymentDay`, mapped
to name / days-left / amount after advance, kept when `daysLeft <= 5`. -/
def watchSalaryEntries (staff : List Staff) (today : ℤ) : List WatchEntry :=
  ((staff.filter (fun s => s.salaryType == "monthly" && pdTruthy s.paymentDay)).map
      (fun s => { name := s.name, daysLeft := watchDaysLeft (s.paymentDay.getD 0) today,
                  amount := s.salaryAmount - s.advanceBalance })).filter
    (fun w => w.daysLeft ≤ 5)

/-- `brief.ts` lines 311-313 (`sendSalaryReminder`): same fixed-30 formula. -/
def reminderDaysUntil (paymentDay currentDay : ℤ) : ℤ :=
  if paymentDay ≥ currentDay then paymentDay - currentDay else 30 - currentDay + paymentDay

/-- `brief.ts` lines 309-315: the staff (already restricted to monthly by the
query) whose salary is due in exactly 3 days. -/
def staffWithUpcomingSalary (staff : List Staff) (currentDay : ℤ) : List Staff :=
  staff.filter (fun s =>
    pdTruthy s.paymentDay && (reminderDaysUntil (s.paymentDay.getD 0) currentDay == 3))

/-- Modelled from the spec (§4.2, claim C7): `daysUntil(paymentDay, today) =
paymentDay - today if paymentDay >= today else (daysInCurrentMonth - today +
paymentDay)`, using the actual days in the current calendar month, as the
spec requires for the user-facing alerts. -/
def specDaysUntil (paymentDay today daysInCurrentMonth : ℤ) : ℤ :=
  if paymentDay ≥ today then paymentDay - today else daysInCurrentMonth - today + paymentDay

/-- Monthly staff paid on the 1st, for the C7 counterexample. -/
def cexStaffC7 : Staff :=
  { name := "Ramu", salaryAmount := 9000, salaryType := "monthly",
    paymentDay := some 1, advanceBalance := 0 }

/-- Claim C7, refuted: on the 31st of a 31-day month with payment day 1, both
alert sites compute 0 days (fixed 30-day month), while the calendar-accurate
formula the spec prescribes gives 1; the watch-item list accordingly carries
`daysLeft = 0`, and the reminder filter fires on the 28th (code days-until 3)
although the actual gap is 4 days. -/
theorem C7_counterexample :
    watchDaysLeft 1 31 = 0 ∧ reminderDaysUntil 1 31 = 0 ∧
    specDaysUntil 1 31 31 = 1 ∧ watchDaysLeft 1 31 ≠ specDaysUntil 1 31 31 ∧
    (watchSalaryEntries [cexStaffC7] 31).map (fun w => w.daysLeft) = [0] ∧
    staffWithUpcomingSalary [cexStaffC7] 28 = [cexStaffC7] ∧
    specDaysUntil 1 28 31 = 4 := by
  refine ⟨by norm_num [watchDaysLeft], by norm_num [reminderDaysUntil],
    by norm_num [specDaysUntil], by norm_num [watchDaysLeft, specDaysUntil], ?_, ?_,
    by norm_num [specDaysUntil]⟩
  · simp [watchSalaryEntries, cexStaffC7, pdTruthy, watchDaysLeft]
  · simp [staffWithUpcomingSalary, cexStaffC7, pdTruthy, reminderDaysUntil]

/-- Claim C7, amended: both alert sites use the same fixed-30 formula; it
agrees with the calendar-accurate formula exactly when `paymentDay ≥ today`,
and otherwise differs from it by `daysInCurrentMonth - 30`; the watch items
and the reminder filter are built on that formula. -/
theorem C7_amended (p t m : ℤ) :
    watchDaysLeft p t = reminderDaysUntil p t ∧
    (t ≤ p → watchDaysLeft p t = specDaysUntil p t m) ∧
    (p < t → specDaysUntil p t m - watchDaysLeft p t = m - 30) ∧
    (∀ s : Staff, ∀ w ∈ watchSalaryEntries [s] t,
      w.daysLeft = watchDaysLeft (s.paymentDay.getD 0) t) ∧
    (∀ s : Staff, ∀ s2 ∈ staffWithUpcomingSalary [s] t,
      reminderDaysUntil (s2.paymentDay.getD 0) t = 3) := by
  refine ⟨rfl, ?_, ?_, ?_, ?_⟩
  · intro h
    rw [watchDaysLeft, specDaysUntil, if_pos h, if_pos h]
  · intro h
    rw [watchDaysLeft, specDaysUntil, if_neg (by omega), if_neg (by omega)]
    ring
  · intro s w hw
    simp only [watchSalaryEntries, List.mem_filter] at hw
    obtain ⟨hw1, _⟩ := hw
    simp only [List.mem_map] at hw1
    obtain ⟨s2, hs2, rfl⟩ := hw1
    simp only [List.mem_filter, List.mem_singleton] at hs2
    obtain ⟨rfl, _⟩ := hs2
    rfl
  · intro s s2 hs2
    simp only [staffWithUpcomingSalary, List.mem_filter, List.mem_singleton] at hs2
    obtain ⟨rfl, h2⟩ := hs2
    have := (Bool.and_eq_true _ _).mp h2
    simpa using this.2

/-- Witness for `C7_amended` at concrete payment days. -/
theorem C7_witness :
    watchDaysLeft 1 31 = reminderDaysUntil 1 31 ∧
    specDaysUntil 1 31 31 - watchDaysLeft 1 31 = 31 - 30 ∧
    watchDaysLeft 20 10 = specDaysUntil 20 10 31 := by
  exact ⟨(C7_amended 1 31 31).1, (C7_amended 1 31 31).2.2.1 (by norm_num),
    (C7_amended 20 10 31).2.1 (by norm_num)⟩

end Saarathi
